import Mathlib

/-!
Verification of the path-generation and motion-integration core of the
IsaacSim camera extension (files `polynomial_path_generator.py`,
`bezier_path_generator.py`, `drone_simulator.py`).

Vectors (`pxr.Gf.Vec3f`) are modelled over the real numbers; the host's
floating-point arithmetic is idealised as exact real arithmetic.  Calls to
`random.uniform` are modelled by explicit noise streams passed as parameters,
and the scipy spline fits (which may raise) are modelled as `Option`-valued
fit results supplied by the caller.
-/

noncomputable section

open scoped Classical

/-- Model of `pxr.Gf.Vec3f`: a 3-component vector of (idealised) reals. -/
structure Vec3 where
  x : ℝ
  y : ℝ
  z : ℝ

namespace Vec3

/-- Componentwise addition (`Gf.Vec3f.__add__`). -/
def add (a b : Vec3) : Vec3 := ⟨a.x + b.x, a.y + b.y, a.z + b.z⟩

/-- Componentwise subtraction (`Gf.Vec3f.__sub__`). -/
def sub (a b : Vec3) : Vec3 := ⟨a.x - b.x, a.y - b.y, a.z - b.z⟩

/-- Scalar multiplication (`Gf.Vec3f.__mul__` with a scalar). -/
def smul (r : ℝ) (a : Vec3) : Vec3 := ⟨r * a.x, r * a.y, r * a.z⟩

/-- The zero vector `Gf.Vec3f(0, 0, 0)`. -/
def zero : Vec3 := ⟨0, 0, 0⟩

/-- Embeds `Gf.Vec3f.GetLength()`: the Euclidean length. -/
def GetLength (v : Vec3) : ℝ := Real.sqrt (v.x ^ 2 + v.y ^ 2 + v.z ^ 2)

/-- The `eps` default `GF_MIN_VECTOR_LENGTH` used by `GetNormalized`. -/
def vecEps : ℝ := 1e-10

/-- Embeds `Gf.Vec3f.GetNormalized()`: divides by `max(length, eps)`, so the zero
vector normalises to the zero vector instead of raising. -/
def GetNormalized (v : Vec3) : Vec3 := smul (1 / max (GetLength v) vecEps) v

end Vec3

/-- Python `int(x)` applied to a float: truncation toward zero. -/
def pyTrunc (x : ℝ) : ℤ := if x < 0 then -⌊-x⌋ else ⌊x⌋

/-- Python list indexing with negative-index wraparound (out-of-range reads
are modelled as the supplied default). -/
def pyGet {α : Type} (l : List α) (i : ℤ) (d : α) : α :=
  if i < 0 then l.getD (l.length - (-i).toNat) d else l.getD i.toNat d

/-- Embeds `numpy.linspace(a, b, n)` with `endpoint=True`: `n` evenly spaced values
from `a` to `b` (empty for `n = 0`, `[a]` for `n = 1`). -/
def linspace (a b : ℝ) (n : ℕ) : List ℝ :=
  (List.range n).map (fun (i : ℕ) => a + (b - a) * i / ((n : ℝ) - 1))

/-- One fitted interpolant per coordinate axis, as produced by a successful
`CubicSpline` / `interp1d` call in `_generate_parametric_curve`. -/
structure AxisSplines where
  sx : ℝ → ℝ
  sy : ℝ → ℝ
  sz : ℝ → ℝ

namespace PolynomialPathGenerator

/-- The dense-sampling and endpoint-overwrite part of
`PolynomialPathGenerator._generate_parametric_curve` (lines 116-133): sample
the chosen per-axis splines at `len(checkpoints) * points_per_segment`
parameters in `[0, 1]`, then force the first and last samples to equal the
first and last checkpoints. -/
def sampleAndClamp (splines : AxisSplines) (checkpoints : List Vec3)
    (pointsPerSegment : ℕ) : List Vec3 :=
  let numPoints := checkpoints.length * pointsPerSegment
  let tDense := linspace 0 1 numPoints
  let curvePoints := tDense.map (fun t => Vec3.mk (splines.sx t) (splines.sy t) (splines.sz t))
  if curvePoints.isEmpty then curvePoints
  else
    (curvePoints.set 0 (checkpoints.headD Vec3.zero)).set
      (curvePoints.length - 1) (checkpoints.getLastD Vec3.zero)

/-- Embeds `PolynomialPathGenerator._generate_parametric_curve`.  The scipy fits are
modelled by their outcomes: `periodicFit` and `naturalFit` are `none` when the
corresponding `CubicSpline` call raises (the bare `except:` branches of lines
93-114), and `linearFit` is the always-successful `interp1d` linear fallback.
Checkpoint lists shorter than 2 are returned unchanged. -/
def generateParametricCurve (periodicFit naturalFit : Option AxisSplines)
    (linearFit : AxisSplines) (checkpoints : List Vec3)
    (pointsPerSegment : ℕ) : List Vec3 :=
  if checkpoints.length < 2 then checkpoints
  else
    let splines :=
      match periodicFit with
      | some s => s
      | none =>
        match naturalFit with
        | some s => s
        | none => linearFit
    sampleAndClamp splines checkpoints pointsPerSegment

/-- Embeds `PolynomialPathGenerator.get_speed_profile`: a constant profile with one
entry per path point, or the one-element `[base_speed]` when the path is
empty. -/
def getSpeedProfile (pathPoints : List Vec3) (baseSpeed : ℝ) : List ℝ :=
  if pathPoints.length = 0 then [baseSpeed]
  else List.replicate pathPoints.length baseSpeed

/-- Embeds `PolynomialPathGenerator.get_next_target`.  The mutable
`current_path_index` attribute is threaded explicitly; `none` models the
attribute not existing yet (the `hasattr` guard creates it as `0`).  Returns
the target point (`None` past the end), the reached-end flag, and the updated
index. -/
def getNextTarget (pathPoints : List Vec3) (currentPathIndex : Option ℕ)
    (currentPosition : Vec3) (lookAheadDistance : ℝ) :
    Option Vec3 × Bool × ℕ :=
  let idx := currentPathIndex.getD 0
  if pathPoints.length ≤ idx then (none, true, idx)
  else
    let targetIndex : ℤ :=
      min ((idx : ℤ) + pyTrunc (lookAheadDistance * 10)) ((pathPoints.length : ℤ) - 1)
    let targetPoint := pyGet pathPoints targetIndex Vec3.zero
    let distance := Vec3.GetLength (targetPoint.sub currentPosition)
    let idx' := if distance < 0.3 then min (idx + 1) (pathPoints.length - 1) else idx
    let reachedEnd := pathPoints.length - 1 ≤ idx'
    (some targetPoint, reachedEnd, idx')

end PolynomialPathGenerator

/-- The outcomes of the `random.uniform` draws consumed by
`BezierPathGenerator`: `dev n` is the `n`-th deviation magnitude drawn by
`_add_deviation`, and `micro n` is the triple of per-axis offsets drawn by the
`n`-th `_add_micro_deviation` call. -/
structure Noise where
  dev : ℕ → ℝ
  micro : ℕ → Vec3

namespace BezierPathGenerator

/-- Embeds `BezierPathGenerator._add_deviation`: offset a point along a vector
perpendicular to the prev→next direction by a random magnitude `mag`. -/
def addDeviation (point prevPoint nextPoint : Vec3) (mag : ℝ) : Vec3 :=
  let direction := Vec3.GetNormalized (nextPoint.sub prevPoint)
  let perpendicular : Vec3 := ⟨-direction.y, direction.x, direction.z⟩
  point.add (Vec3.smul mag perpendicular)

/-- Embeds `BezierPathGenerator._add_micro_deviation`: add the random per-axis
offsets `m` to a point. -/
def addMicroDeviation (point : Vec3) (m : Vec3) : Vec3 := point.add m

/-- Embeds `BezierPathGenerator._interpolate_3point_bezier` (lines 134-165). -/
def interpolate3PointBezier (p0 p1 p2 : Vec3) (t : ℝ) : Vec3 :=
  if 0.4 < t ∧ t < 0.6 then
    let checkpointWeight : ℝ := 0.7
    ((Vec3.smul ((1 - t) * (1 - checkpointWeight)) p0).add
      (Vec3.smul checkpointWeight p1)).add (Vec3.smul (t * (1 - checkpointWeight)) p2)
  else
    let midPoint := Vec3.smul 0.5 (p0.add p2)
    let directionToP1 := Vec3.GetNormalized (p1.sub midPoint)
    let curveStrength : ℝ := 0.6
    let controlOffset :=
      Vec3.smul (Vec3.GetLength (p1.sub midPoint) * curveStrength) directionToP1
    let controlPoint := p1.add controlOffset
    ((Vec3.smul ((1 - t) * (1 - t)) p0).add
      (Vec3.smul (2 * (1 - t) * t) controlPoint)).add (Vec3.smul (t * t) p2)

/-- Embeds `BezierPathGenerator._generate_segmented_bezier` (lines 86-132): one
continuous curve of `points_per_segment * len(checkpoints)` points; every
point receives a micro random deviation, and there is no endpoint
overwrite. -/
def generateSegmentedBezier (checkpoints : List Vec3) (pointsPerSegment : ℕ)
    (noise : Noise) : List Vec3 :=
  let totalPoints := pointsPerSegment * checkpoints.length
  (List.range totalPoints).map (fun (i : ℕ) =>
    let t : ℝ := (i : ℝ) / ((totalPoints : ℝ) - 1)
    let checkpointIndex := t * ((checkpoints.length : ℝ) - 1)
    let currentIndex := ⌊checkpointIndex⌋₊
    let nextIndex := min (currentIndex + 1) (checkpoints.length - 1)
    let localT := checkpointIndex - (currentIndex : ℝ)
    let p0 := checkpoints.getD currentIndex Vec3.zero
    let p1 := checkpoints.getD nextIndex Vec3.zero
    let point :=
      if nextIndex + 1 < checkpoints.length then
        interpolate3PointBezier p0 p1 (checkpoints.getD (nextIndex + 1) Vec3.zero) localT
      else
        (Vec3.smul (1 - localT) p0).add (Vec3.smul localT p1)
    addMicroDeviation point (noise.micro i))

/-- Embeds `BezierPathGenerator._generate_2point_bezier` (lines 253-286): a near-line
between two checkpoints with one random control point and per-point micro
deviation; again no endpoint overwrite. -/
def generate2PointBezier (p0 p1 : Vec3) (numPoints : ℕ) (noise : Noise) :
    List Vec3 :=
  let midPoint := Vec3.smul 0.5 (p0.add p1)
  let controlPoint := addDeviation midPoint p0 p1 (noise.dev 0)
  (List.range numPoints).map (fun (i : ℕ) =>
    let t : ℝ := (i : ℝ) / ((numPoints : ℝ) - 1)
    let point := (Vec3.smul (1 - t) p0).add (Vec3.smul t p1)
    let controlInfluence :=
      Vec3.smul (0.3 * (1 - t) * t) (controlPoint.sub midPoint)
    addMicroDeviation (point.add controlInfluence) (noise.micro i))

/-- Embeds `BezierPathGenerator.generate_bezier_path` (lines 37-84): checkpoint lists
shorter than 2 are returned unchanged; exactly 2 checkpoints use the 2-point
curve; 3 or more use the segmented curve. -/
def generateBezierPath (checkpoints : List Vec3) (pointsPerSegment : ℕ)
    (noise : Noise) : List Vec3 :=
  if checkpoints.length < 2 then checkpoints
  else if checkpoints.length = 2 then
    generate2PointBezier (checkpoints.getD 0 Vec3.zero) (checkpoints.getD 1 Vec3.zero)
      pointsPerSegment noise
  else
    generateSegmentedBezier checkpoints pointsPerSegment noise

/-- Embeds `BezierPathGenerator._calculate_segment_info`: per-segment
`(start_idx, end_idx)` index ranges over the path points. -/
def calculateSegmentInfo (totalPoints : ℕ) (numCheckpoints : ℕ) :
    List (ℕ × ℕ) :=
  if totalPoints = 0 then []
  else
    let pointsPerSegment := totalPoints / max 1 (numCheckpoints - 1)
    (List.range (numCheckpoints - 1)).map (fun i =>
      (i * pointsPerSegment,
        if i < numCheckpoints - 2 then (i + 1) * pointsPerSegment else totalPoints))

/-- Embeds `BezierPathGenerator._get_segment_info`: locate the segment containing a
point index and the local parameter within it. -/
def getSegmentInfo (pointIndex : ℕ) (segmentInfo : List (ℕ × ℕ)) : ℕ × ℝ :=
  match segmentInfo.enum.find?
      (fun e => decide (e.2.1 ≤ pointIndex ∧ pointIndex < e.2.2)) with
  | some (i, s, e) =>
      (i, ((pointIndex : ℝ) - (s : ℝ)) / (max 1 ((e - s) - 1) : ℕ))
  | none =>
      match segmentInfo.getLast? with
      | some (s, e) =>
          (segmentInfo.length - 1,
            ((pointIndex : ℝ) - (s : ℝ)) / (max 1 ((e - s) - 1) : ℕ))
      | none => (0, 0)

/-- Embeds `BezierPathGenerator._get_checkpoint_based_speed_factor` (lines 420-453). -/
def getCheckpointBasedSpeedFactor (segmentIndex : ℕ) (localT : ℝ)
    (totalSegments : ℕ) : ℝ :=
  if segmentIndex = 0 then
    if localT < 0.3 then 0.3 + 0.7 * (localT / 0.3) else 1.0
  else if segmentIndex = totalSegments - 1 then
    if 0.7 < localT then 1.0 - 0.7 * ((localT - 0.7) / 0.3) else 1.0
  else
    if localT < 0.4 then 1.0 - 0.5 * (localT / 0.4)
    else if localT < 0.6 then 0.5
    else 0.5 + 0.5 * ((localT - 0.6) / 0.4)

/-- Embeds `BezierPathGenerator.get_speed_profile` (lines 340-380): one jittered,
floor-clamped speed per path point; `[base_speed]` when the path is empty.
`variation n` is the `n`-th `random.uniform(1 - v, 1 + v)` draw. -/
def getSpeedProfile (pathPoints checkpoints : List Vec3) (baseSpeed : ℝ)
    (variation : ℕ → ℝ) : List ℝ :=
  let numPoints := pathPoints.length
  if numPoints = 0 then [baseSpeed]
  else
    let segmentInfo := calculateSegmentInfo numPoints checkpoints.length
    (List.range numPoints).map (fun i =>
      let si := getSegmentInfo i segmentInfo
      let speedFactor := getCheckpointBasedSpeedFactor si.1 si.2 segmentInfo.length
      let speed := baseSpeed * speedFactor * variation i
      max speed (baseSpeed * 0.1))

/-- Embeds `BezierPathGenerator.get_next_target` (lines 455-483): identical logic to
the polynomial generator's version, but `current_path_index` always exists. -/
def getNextTarget (pathPoints : List Vec3) (currentPathIndex : ℕ)
    (currentPosition : Vec3) (lookAheadDistance : ℝ) :
    Option Vec3 × Bool × ℕ :=
  if pathPoints.length ≤ currentPathIndex then (none, true, currentPathIndex)
  else
    let targetIndex : ℤ :=
      min ((currentPathIndex : ℤ) + pyTrunc (lookAheadDistance * 10))
        ((pathPoints.length : ℤ) - 1)
    let targetPoint := pyGet pathPoints targetIndex Vec3.zero
    let distance := Vec3.GetLength (targetPoint.sub currentPosition)
    let idx' := if distance < 0.3 then min (currentPathIndex + 1) (pathPoints.length - 1)
                else currentPathIndex
    let reachedEnd := pathPoints.length - 1 ≤ idx'
    (some targetPoint, reachedEnd, idx')

end BezierPathGenerator

/-- Model of `pxr.Gf.Quatd`: the constructor takes the REAL part first,
`Gf.Quatd(real, i, j, k)`. -/
structure Quatd where
  re : ℝ
  im1 : ℝ
  im2 : ℝ
  im3 : ℝ

namespace DroneSimulator

/-- Embeds `Gf.Cross` for 3-vectors. -/
def cross (u v : Vec3) : Vec3 :=
  ⟨u.y * v.z - u.z * v.y, u.z * v.x - u.x * v.z, u.x * v.y - u.y * v.x⟩

/-- Embeds `Gf.Dot` for 3-vectors. -/
def dot (u v : Vec3) : ℝ := u.x * v.x + u.y * v.y + u.z * v.z

/-- Embeds `DroneSimulator._tangent_to_quaternion` (lines 419-478).  Note that the
final `Gf.Quatd(...)` call passes `sin(angle/2) * axis` as the FIRST three
constructor arguments and `cos(angle/2)` as the fourth, while `Gf.Quatd`
takes `(real, i, j, k)`. -/
def tangentToQuaternion (tangentVector : Vec3) : Quatd :=
  let cameraForward : Vec3 := ⟨0, 0, -1⟩
  if 0.99 < |tangentVector.z| then
    if 0 < tangentVector.z then ⟨0, 1, 0, 0⟩ else ⟨1, 0, 0, 0⟩
  else
    let rotationAxis := cross cameraForward tangentVector
    if Vec3.GetLength rotationAxis < 1e-6 then ⟨1, 0, 0, 0⟩
    else
      let axisN := Vec3.GetNormalized rotationAxis
      let cosAngle := dot cameraForward tangentVector
      let angle := Real.arccos (max (-1) (min 1 cosAngle))
      ⟨Real.sin (angle / 2) * axisN.x, Real.sin (angle / 2) * axisN.y,
        Real.sin (angle / 2) * axisN.z, Real.cos (angle / 2)⟩

/-- Modelled from the spec: the minimal rotation carrying the camera forward
axis `(0, 0, -1)` onto the tangent, built from axis = normalised cross
product and angle = arccos of the dot product; its quaternion has real part
`cos(angle/2)` and imaginary part `sin(angle/2) * axis`. -/
def minimalRotationQuat (tangentVector : Vec3) : Quatd :=
  let cameraForward : Vec3 := ⟨0, 0, -1⟩
  let axisN := Vec3.GetNormalized (cross cameraForward tangentVector)
  let angle := Real.arccos (max (-1) (min 1 (dot cameraForward tangentVector)))
  ⟨Real.cos (angle / 2), Real.sin (angle / 2) * axisN.x,
    Real.sin (angle / 2) * axisN.y, Real.sin (angle / 2) * axisN.z⟩

/-- The per-drone entry of `DroneSimulator.active_drones` (the fields touched
by `_update_drone_movement` and `_check_extrema_reached`). -/
structure DroneInfo where
  checkpoints : List Vec3
  extremaPath : List Vec3
  speedProfile : List ℝ
  currentPathIndex : ℕ
  currentPosition : Vec3
  targetPosition : Vec3
  isMoving : Bool
  checkpointReached : ℕ

/-- Embeds `DroneSimulator._check_extrema_reached` (lines 221-256): the 1-based
number of the first checkpoint within distance `0.8` of the current position
that has not been counted yet, or `0` if there is none. -/
def checkExtremaReached (d : DroneInfo) (currentPos : Vec3) : ℕ :=
  match d.checkpoints.enum.find?
      (fun e => decide (Vec3.GetLength ((e.2).sub currentPos) < 0.8 ∧
        d.checkpointReached < e.1 + 1)) with
  | some (i, _) => i + 1
  | none => 0

/-- The speed lookup at the top of `_update_drone_movement` (lines 161-169):
the profile entry at the current path index, falling back to the last entry
(or `2.0` for an empty profile), with non-positive values replaced by `2.0`. -/
def currentTickSpeed (d : DroneInfo) : ℝ :=
  let speedRaw :=
    if d.currentPathIndex < d.speedProfile.length then
      d.speedProfile.getD d.currentPathIndex 0
    else d.speedProfile.getLastD 2.0
  if speedRaw ≤ 0 then 2.0 else speedRaw

/-- The checkpoint-counting block of `_update_drone_movement` (lines
174-181): record a newly reached checkpoint number if it exceeds the count
so far. -/
def applyCheckpointCount (d : DroneInfo) : DroneInfo :=
  let cpR := checkExtremaReached d d.currentPosition
  if cpR ≠ 0 ∧ d.checkpointReached < cpR then { d with checkpointReached := cpR }
  else d

/-- The movement block of `_update_drone_movement` (lines 198-219).  The
locals `current_pos`, `target_pos`, `distance_to_target` and `current_speed`
were captured at entry from `entry`, so the displacement and the overshoot
clamp use the entry snapshot even if the arrival block has already advanced
the target; the result is only applied when the moving flag is set. -/
def moveTowardTarget (entry : DroneInfo) (currentSpeed deltaTime : ℝ)
    (e : DroneInfo) : DroneInfo :=
  if e.isMoving then
    let direction := Vec3.GetNormalized (entry.targetPosition.sub entry.currentPosition)
    let movement := Vec3.smul (currentSpeed * deltaTime) direction
    let newPosition :=
      if Vec3.GetLength (entry.targetPosition.sub entry.currentPosition) <
          currentSpeed * deltaTime then entry.targetPosition
      else entry.currentPosition.add movement
    { e with currentPosition := newPosition }
  else e

/-- Embeds `DroneSimulator._update_drone_movement` (lines 144-219): one fixed-timestep
tick for one drone.  When the entry distance to the target is below the 0.15
arrival threshold, the target index advances (movement then still uses the
entry snapshot), or — if no sample remains — the moving flag is cleared and
the function returns early with no position change. -/
def updateDroneMovement (deltaTime : ℝ) (d : DroneInfo) : DroneInfo :=
  let currentSpeed := currentTickSpeed d
  let d1 := applyCheckpointCount d
  if Vec3.GetLength (d.targetPosition.sub d.currentPosition) < 0.15 then
    if d1.currentPathIndex + 1 < d1.extremaPath.length then
      moveTowardTarget d currentSpeed deltaTime
        { d1 with currentPathIndex := d1.currentPathIndex + 1,
                  targetPosition := d1.extremaPath.getD (d1.currentPathIndex + 1) Vec3.zero }
    else
      { d1 with isMoving := false }
  else
    moveTowardTarget d currentSpeed deltaTime d1

end DroneSimulator

namespace DroneSimulator

/-- The drone state during a straight 2-point run, as created by
`start_drone_simulation` for the path `[a, b]` with the uniform speed profile
`[s, s]`: no original checkpoints, position `p`, target `b`. -/
def twoPointRun (a b : Vec3) (s : ℝ) (p : Vec3) (i : ℕ) (mv : Bool) : DroneInfo :=
  ⟨[], [a, b], [s, s], i, p, b, mv, 0⟩

/-- The position reached after `k` full displacements of size `c` from `a`
toward `b`. -/
def posAt (a b : Vec3) (c : ℝ) (k : ℕ) : Vec3 :=
  a.add (Vec3.smul (k * c) (Vec3.GetNormalized (b.sub a)))

end DroneSimulator


/-- Modelled from the spec: the trapezoidal speed factor of §4.2 — the first
range ramps 0.3 → 1.0 over its first 30% then holds 1.0; interior ranges
decelerate linearly 1.0 → 0.5 over the first 40%, hold 0.5 through 40–60%,
then accelerate 0.5 → 1.0 over the remaining 40%; the last range holds 1.0
until 70% then decelerates to 0.3. -/
def specTrapezoidFactor (segmentIndex : ℕ) (localT : ℝ) (totalSegments : ℕ) : ℝ :=
  if segmentIndex = 0 then
    if localT < 0.3 then 0.3 + (1.0 - 0.3) * (localT / 0.3) else 1.0
  else if segmentIndex = totalSegments - 1 then
    if 0.7 < localT then 1.0 + (0.3 - 1.0) * ((localT - 0.7) / 0.3) else 1.0
  else
    if localT < 0.4 then 1.0 + (0.5 - 1.0) * (localT / 0.4)
    else if localT < 0.6 then 0.5
    else 0.5 + (1.0 - 0.5) * ((localT - 0.6) / 0.4)

/-! ### Concrete inputs used by counterexamples and witnesses -/

/-- Three collinear checkpoints used as a concrete input. -/
def cexCheckpoints : List Vec3 := [⟨0, 0, 0⟩, ⟨4, 0, 0⟩, ⟨8, 0, 0⟩]

/-- A concrete noise outcome: every micro deviation is `(0.01, 0, 0)` (inside
the `±0.05` band of `_add_micro_deviation`) and every `_add_deviation`
magnitude is `0`. -/
def cexNoise : Noise := ⟨fun _ => 0, fun _ => ⟨1 / 100, 0, 0⟩⟩

/-- A trivial linear fit used when a concrete `AxisSplines` value is needed. -/
def cexSplines : AxisSplines := ⟨id, id, id⟩

/-- The concrete tangent `(1, 0, 0)`: unit length, `|z| = 0 <= 0.99`, and its
cross product with the camera forward axis is `(0, -1, 0)`, far from zero. -/
def cexTangent : Vec3 := ⟨1, 0, 0⟩

/-! ### Vec3 and Quatd lemmas -/

namespace Vec3

@[ext] theorem ext_vec {a b : Vec3} (hx : a.x = b.x) (hy : a.y = b.y) (hz : a.z = b.z) :
    a = b := by
  cases a; cases b; simp_all

@[simp] theorem add_x (a b : Vec3) : (a.add b).x = a.x + b.x := rfl
@[simp] theorem add_y (a b : Vec3) : (a.add b).y = a.y + b.y := rfl
@[simp] theorem add_z (a b : Vec3) : (a.add b).z = a.z + b.z := rfl
@[simp] theorem sub_x (a b : Vec3) : (a.sub b).x = a.x - b.x := rfl
@[simp] theorem sub_y (a b : Vec3) : (a.sub b).y = a.y - b.y := rfl
@[simp] theorem sub_z (a b : Vec3) : (a.sub b).z = a.z - b.z := rfl
@[simp] theorem smul_x (r : ℝ) (a : Vec3) : (smul r a).x = r * a.x := rfl
@[simp] theorem smul_y (r : ℝ) (a : Vec3) : (smul r a).y = r * a.y := rfl
@[simp] theorem smul_z (r : ℝ) (a : Vec3) : (smul r a).z = r * a.z := rfl
@[simp] theorem zero_x : zero.x = 0 := rfl
@[simp] theorem zero_y : zero.y = 0 := rfl
@[simp] theorem zero_z : zero.z = 0 := rfl

theorem smul_zero' (r : ℝ) : smul r zero = zero := by ext <;> simp
theorem zero_smul' (v : Vec3) : smul 0 v = zero := by ext <;> simp
theorem add_zero' (v : Vec3) : v.add zero = v := by ext <;> simp
theorem smul_smul' (r t : ℝ) (v : Vec3) : smul r (smul t v) = smul (r * t) v := by
  ext <;> simp <;> ring
theorem smul_add_smul (r t : ℝ) (v : Vec3) :
    (smul r v).add (smul t v) = smul (r + t) v := by
  ext <;> simp <;> ring
theorem add_sub_cancel' (p b : Vec3) : p.add (b.sub p) = b := by ext <;> simp
theorem sub_self' (v : Vec3) : v.sub v = zero := by ext <;> simp
theorem sub_add (b a : Vec3) (v : Vec3) :
    b.sub (a.add v) = (b.sub a).sub v := by ext <;> simp <;> ring
theorem smul_sub_smul (r t : ℝ) (v : Vec3) :
    (smul r v).sub (smul t v) = smul (r - t) v := by
  ext <;> simp <;> ring
theorem add_assoc' (x y z : Vec3) : (x.add y).add z = x.add (y.add z) := by
  ext <;> simp <;> ring

theorem GetLength_nonneg (v : Vec3) : 0 ≤ GetLength v := Real.sqrt_nonneg _

theorem GetLength_zero : GetLength zero = 0 := by
  simp [GetLength]

theorem GetLength_smul (r : ℝ) (v : Vec3) :
    GetLength (smul r v) = |r| * GetLength v := by
  unfold GetLength smul
  simp only
  rw [show (r * v.x) ^ 2 + (r * v.y) ^ 2 + (r * v.z) ^ 2
        = r ^ 2 * (v.x ^ 2 + v.y ^ 2 + v.z ^ 2) from by ring]
  rw [Real.sqrt_mul (sq_nonneg r), Real.sqrt_sq_eq_abs]

theorem GetNormalized_zero : GetNormalized zero = zero := by
  unfold GetNormalized
  exact smul_zero' _

/-- When the length exceeds `eps`, `GetNormalized` is division by the length. -/
theorem GetNormalized_of_eps_lt {v : Vec3} (h : vecEps < GetLength v) :
    GetNormalized v = smul (1 / GetLength v) v := by
  unfold GetNormalized
  rw [max_eq_left (le_of_lt h)]

theorem GetLength_GetNormalized {v : Vec3} (h : vecEps < GetLength v) :
    GetLength (GetNormalized v) = 1 := by
  have hpos : 0 < GetLength v := lt_trans (by norm_num [vecEps]) h
  rw [GetNormalized_of_eps_lt h, GetLength_smul, abs_of_pos (by positivity)]
  field_simp


end Vec3

namespace Quatd

@[ext] theorem ext_quat {a b : Quatd} (h1 : a.re = b.re) (h2 : a.im1 = b.im1)
    (h3 : a.im2 = b.im2) (h4 : a.im3 = b.im3) : a = b := by
  cases a; cases b; simp_all

end Quatd

/-! ### List helper lemmas -/

theorem head?_map_range {α : Type} (f : ℕ → α) {n : ℕ} (h : 0 < n) :
    ((List.range n).map f).head? = some (f 0) := by
  rw [List.head?_eq_getElem?, List.getElem?_map, List.getElem?_range h]
  rfl

theorem getLast?_map_range {α : Type} (f : ℕ → α) {n : ℕ} (h : 0 < n) :
    ((List.range n).map f).getLast? = some (f (n - 1)) := by
  rw [List.getLast?_eq_getElem?]
  simp only [List.length_map, List.length_range, List.getElem?_map]
  rw [List.getElem?_range (Nat.sub_lt h one_pos)]
  rfl

theorem set_set_head? {α : Type} (l : List α) (a b : α) (h : 2 ≤ l.length) :
    ((l.set 0 a).set (l.length - 1) b).head? = some a := by
  have h0 : (0 : ℕ) < l.length := by omega
  have hne : l.length - 1 ≠ 0 := by omega
  rw [List.head?_eq_getElem?, List.getElem?_set_ne hne, List.getElem?_set_eq h0]

theorem set_set_getLast? {α : Type} (l : List α) (a b : α) (h : 2 ≤ l.length) :
    ((l.set 0 a).set (l.length - 1) b).getLast? = some b := by
  rw [List.getLast?_eq_getElem?]
  simp only [List.length_set]
  rw [List.getElem?_set_eq (by simp only [List.length_set]; omega)]

theorem headD_eq_getD_zero {α : Type} (l : List α) (d : α) :
    l.headD d = l.getD 0 d := by
  cases l <;> rfl

theorem getLastD_eq_getD {α : Type} (l : List α) (d : α) :
    l.getLastD d = l.getD (l.length - 1) d := by
  rw [List.getLastD_eq_getLast?, List.getD_eq_getElem?_getD, List.getLast?_eq_getElem?]

/-! ### Curve builder helper lemmas -/

theorem length_linspace (a b : ℝ) (n : ℕ) : (linspace a b n).length = n := by
  unfold linspace
  rw [List.length_map, List.length_range]

namespace PolynomialPathGenerator

/-- With at least 2 checkpoints and a positive sampling density, the
post-hoc overwrite in `_generate_parametric_curve` pins the first and last
curve samples to the first and last checkpoints, whatever the splines are. -/
theorem sampleAndClamp_head_getLast (splines : AxisSplines) (cps : List Vec3)
    (pps : ℕ) (h2 : 2 ≤ cps.length) (h1 : 1 ≤ pps) :
    (sampleAndClamp splines cps pps).head? = some (cps.headD Vec3.zero) ∧
    (sampleAndClamp splines cps pps).getLast? = some (cps.getLastD Vec3.zero) := by
  unfold sampleAndClamp
  set cp := (linspace 0 1 (cps.length * pps)).map
      (fun t => Vec3.mk (splines.sx t) (splines.sy t) (splines.sz t)) with hcp
  have hn : 2 ≤ cps.length * pps := le_trans h2 (Nat.le_mul_of_pos_right _ h1)
  have hlen : cp.length = cps.length * pps := by
    rw [hcp, List.length_map, length_linspace]
  have h2' : 2 ≤ cp.length := by omega
  rw [if_neg]
  · exact ⟨set_set_head? cp _ _ h2', set_set_getLast? cp _ _ h2'⟩
  · show ¬(cp.isEmpty = true)
    simp only [List.isEmpty_iff]
    intro hemp
    rw [hemp] at hlen
    simp only [List.length_nil] at hlen
    omega

/-- Sampling density 0 silently yields an empty curve: no validation exists. -/
theorem sampleAndClamp_zero (splines : AxisSplines) (cps : List Vec3) :
    sampleAndClamp splines cps 0 = [] := by
  unfold sampleAndClamp
  simp [linspace]

end PolynomialPathGenerator

namespace BezierPathGenerator

theorem interpolate3PointBezier_zero (p0 p1 p2 : Vec3) :
    interpolate3PointBezier p0 p1 p2 0 = p0 := by
  unfold interpolate3PointBezier
  rw [if_neg (by norm_num)]
  ext <;> simp

end BezierPathGenerator

namespace BezierPathGenerator

theorem length_generateSegmentedBezier (cps : List Vec3) (pps : ℕ) (noise : Noise) :
    (generateSegmentedBezier cps pps noise).length = pps * cps.length := by
  unfold generateSegmentedBezier
  rw [List.length_map, List.length_range]

theorem length_generate2PointBezier (p0 p1 : Vec3) (n : ℕ) (noise : Noise) :
    (generate2PointBezier p0 p1 n noise).length = n := by
  unfold generate2PointBezier
  rw [List.length_map, List.length_range]

/-- The first sample of the segmented Bezier curve is the first checkpoint
PLUS the first micro random deviation: there is no endpoint overwrite. -/
theorem generateSegmentedBezier_head? (cps : List Vec3) (pps : ℕ) (noise : Noise)
    (h3 : 3 ≤ cps.length) (h1 : 1 ≤ pps) :
    (generateSegmentedBezier cps pps noise).head? =
      some ((cps.getD 0 Vec3.zero).add (noise.micro 0)) := by
  unfold generateSegmentedBezier
  have hT : 0 < pps * cps.length := Nat.mul_pos h1 (by omega)
  rw [head?_map_range _ hT]
  simp only [Nat.cast_zero, zero_div, zero_mul, Nat.floor_zero, sub_zero, zero_add]
  rw [min_eq_left (by omega), if_pos (by omega), interpolate3PointBezier_zero]
  rfl

/-- The last sample of the segmented Bezier curve is the last checkpoint PLUS
the last micro random deviation: there is no endpoint overwrite. -/
theorem generateSegmentedBezier_getLast? (cps : List Vec3) (pps : ℕ) (noise : Noise)
    (h3 : 3 ≤ cps.length) (h1 : 1 ≤ pps) :
    (generateSegmentedBezier cps pps noise).getLast? =
      some ((cps.getD (cps.length - 1) Vec3.zero).add
        (noise.micro (pps * cps.length - 1))) := by
  unfold generateSegmentedBezier
  have hT : 3 ≤ pps * cps.length := le_trans h3 (Nat.le_mul_of_pos_left _ h1)
  rw [getLast?_map_range _ (by omega)]
  have hcast : ((pps * cps.length - 1 : ℕ) : ℝ) = (pps * cps.length : ℕ) - 1 := by
    push_cast [Nat.cast_sub (by omega : 1 ≤ pps * cps.length)]
    ring
  have hne : ((pps * cps.length : ℕ) : ℝ) - 1 ≠ 0 := by
    have : (3 : ℝ) ≤ ((pps * cps.length : ℕ) : ℝ) := by exact_mod_cast hT
    linarith
  have hlen : ((cps.length : ℝ) - 1) = ((cps.length - 1 : ℕ) : ℝ) := by
    push_cast [Nat.cast_sub (by omega : 1 ≤ cps.length)]
    ring
  simp only [hcast, div_self hne, one_mul, hlen, Nat.floor_natCast, sub_self]
  rw [Nat.sub_add_cancel (by omega : 1 ≤ cps.length), min_eq_right (by omega),
    if_neg (by omega)]
  congr 1
  congr 1
  ext <;> simp

/-- The first sample of the 2-checkpoint Bezier curve is the first checkpoint
plus the first micro random deviation. -/
theorem generate2PointBezier_head? (p0 p1 : Vec3) (n : ℕ) (noise : Noise)
    (h2 : 2 ≤ n) :
    (generate2PointBezier p0 p1 n noise).head? =
      some (p0.add (noise.micro 0)) := by
  unfold generate2PointBezier
  rw [head?_map_range _ (by omega)]
  simp only [Nat.cast_zero, zero_div, sub_zero, mul_zero, zero_mul]
  congr 1
  unfold addMicroDeviation
  congr 1
  ext <;> simp

/-- The last sample of the 2-checkpoint Bezier curve is the second checkpoint
plus the last micro random deviation. -/
theorem generate2PointBezier_getLast? (p0 p1 : Vec3) (n : ℕ) (noise : Noise)
    (h2 : 2 ≤ n) :
    (generate2PointBezier p0 p1 n noise).getLast? =
      some (p1.add (noise.micro (n - 1))) := by
  unfold generate2PointBezier
  rw [getLast?_map_range _ (by omega)]
  have hcast : ((n - 1 : ℕ) : ℝ) = (n : ℝ) - 1 := by
    push_cast [Nat.cast_sub (by omega : 1 ≤ n)]
    ring
  have hne : (n : ℝ) - 1 ≠ 0 := by
    have : (2 : ℝ) ≤ (n : ℝ) := by exact_mod_cast h2
    linarith
  simp only [hcast, div_self hne, sub_self, one_mul, mul_one, mul_zero, zero_mul]
  congr 1
  unfold addMicroDeviation
  congr 1
  ext <;> simp

end BezierPathGenerator

/-! ### C1 -/

/-- C1 (counterexample): with checkpoints `[(0,0,0), (4,0,0), (8,0,0)]`,
2 samples per segment and micro deviations all equal to `(0.01, 0, 0)`, the
Bezier strategy's first curve sample is `(0.01, 0, 0)`, not the first
checkpoint: the claimed post-hoc endpoint overwrite does not exist in
`_generate_segmented_bezier`. -/
theorem C1_counterexample_bezier_first_sample :
    ¬ ((BezierPathGenerator.generateBezierPath cexCheckpoints 2 cexNoise).head? =
        some (cexCheckpoints.headD Vec3.zero)) := by
  unfold BezierPathGenerator.generateBezierPath
  rw [if_neg (by norm_num [cexCheckpoints]), if_neg (by norm_num [cexCheckpoints])]
  rw [BezierPathGenerator.generateSegmentedBezier_head? _ _ _
    (by norm_num [cexCheckpoints]) (by norm_num)]
  intro h
  have hx := congrArg (fun o => (o.getD Vec3.zero).x) h
  simp [cexCheckpoints, cexNoise, Vec3.zero] at hx

/-- C1 (amended): with at least 2 checkpoints and at least 2 samples per
segment, the polynomial (global spline) strategy's curve starts and ends
exactly at the first and last checkpoints (post-hoc overwrite, regardless of
which spline fit succeeded), while the Bezier strategy's curve starts and
ends at the first and last checkpoints PLUS the micro random deviations of
the first and last samples (no overwrite). -/
theorem C1_amended_endpoint_behaviour (per nat : Option AxisSplines)
    (lin : AxisSplines) (cps : List Vec3) (pps : ℕ) (noise : Noise)
    (h2 : 2 ≤ cps.length) (hp : 2 ≤ pps) :
    ((PolynomialPathGenerator.generateParametricCurve per nat lin cps pps).head? =
        some (cps.headD Vec3.zero) ∧
      (PolynomialPathGenerator.generateParametricCurve per nat lin cps pps).getLast? =
        some (cps.getLastD Vec3.zero)) ∧
    ((BezierPathGenerator.generateBezierPath cps pps noise).head? =
        some ((cps.headD Vec3.zero).add (noise.micro 0)) ∧
      (BezierPathGenerator.generateBezierPath cps pps noise).getLast? =
        some ((cps.getLastD Vec3.zero).add
          (noise.micro
            ((BezierPathGenerator.generateBezierPath cps pps noise).length - 1)))) := by
  constructor
  · unfold PolynomialPathGenerator.generateParametricCurve
    rw [if_neg (by omega)]
    exact PolynomialPathGenerator.sampleAndClamp_head_getLast _ cps pps h2 (by omega)
  · unfold BezierPathGenerator.generateBezierPath
    rw [if_neg (by omega)]
    by_cases hlen : cps.length = 2
    · rw [if_pos hlen]
      rw [BezierPathGenerator.length_generate2PointBezier]
      constructor
      · rw [BezierPathGenerator.generate2PointBezier_head? _ _ _ _ hp,
          headD_eq_getD_zero]
      · rw [BezierPathGenerator.generate2PointBezier_getLast? _ _ _ _ hp,
          getLastD_eq_getD, hlen]
    · rw [if_neg hlen]
      have h3 : 3 ≤ cps.length := by omega
      rw [BezierPathGenerator.length_generateSegmentedBezier]
      constructor
      · rw [BezierPathGenerator.generateSegmentedBezier_head? _ _ _ h3 (by omega),
          headD_eq_getD_zero]
      · rw [BezierPathGenerator.generateSegmentedBezier_getLast? _ _ _ h3 (by omega),
          getLastD_eq_getD]

/-- C1 (witness for the amended theorem): concrete instantiation at the three
collinear checkpoints with 2 samples per segment. -/
theorem C1_amended_witness :
    (PolynomialPathGenerator.generateParametricCurve none none cexSplines
        cexCheckpoints 2).head? = some (⟨0, 0, 0⟩ : Vec3) ∧
    (BezierPathGenerator.generateBezierPath cexCheckpoints 2 cexNoise).getLast? =
      some ((⟨8, 0, 0⟩ : Vec3).add ⟨1 / 100, 0, 0⟩) := by
  have h := C1_amended_endpoint_behaviour none none cexSplines cexCheckpoints 2
    cexNoise (by norm_num [cexCheckpoints]) (by norm_num)
  refine ⟨?_, ?_⟩
  · rw [h.1.1]; rfl
  · rw [h.2.2]; rfl

/-! ### C2 -/

/-- C2 (counterexample): at `samplesPerSegment = 0` with two distinct
checkpoints, both generators return an empty curve and raise no error: there
is no `InvalidParameter` rejection at the API boundary. -/
theorem C2_counterexample_zero_density_silent :
    PolynomialPathGenerator.generateParametricCurve none none cexSplines
        [⟨0, 0, 0⟩, ⟨4, 0, 0⟩] 0 = [] ∧
    BezierPathGenerator.generateBezierPath [⟨0, 0, 0⟩, ⟨4, 0, 0⟩] 0 cexNoise = [] := by
  constructor
  · unfold PolynomialPathGenerator.generateParametricCurve
    rw [if_neg (by norm_num)]
    exact PolynomialPathGenerator.sampleAndClamp_zero _ _
  · rfl

/-- C2 (amended): for every checkpoint list of length at least 2,
`samplesPerSegment = 0` is not rejected: both generators proceed and return
the empty curve (the polynomial generator samples `len * 0 = 0` parameters,
the Bezier generator iterates over an empty range). -/
theorem C2_amended_zero_density_empty_curve (per nat : Option AxisSplines)
    (lin : AxisSplines) (cps : List Vec3) (noise : Noise) (h2 : 2 ≤ cps.length) :
    PolynomialPathGenerator.generateParametricCurve per nat lin cps 0 = [] ∧
    BezierPathGenerator.generateBezierPath cps 0 noise = [] := by
  constructor
  · unfold PolynomialPathGenerator.generateParametricCurve
    rw [if_neg (by omega)]
    exact PolynomialPathGenerator.sampleAndClamp_zero _ _
  · unfold BezierPathGenerator.generateBezierPath
    rw [if_neg (by omega)]
    by_cases hlen : cps.length = 2
    · rw [if_pos hlen]
      rfl
    · rw [if_neg hlen]
      unfold BezierPathGenerator.generateSegmentedBezier
      rw [zero_mul]
      rfl

/-- C2 (witness for the amended theorem): concrete two-checkpoint instance. -/
theorem C2_amended_witness :
    PolynomialPathGenerator.generateParametricCurve none none cexSplines
        [⟨0, 0, 0⟩, ⟨9, 0, 0⟩] 0 = [] ∧
    BezierPathGenerator.generateBezierPath [⟨0, 0, 0⟩, ⟨9, 0, 0⟩] 0 cexNoise = [] :=
  C2_amended_zero_density_empty_curve none none cexSplines _ cexNoise (by norm_num)

/-! ### C9 -/

/-- C9: the spline strategy degrades in the fixed order
periodic → natural → linear.  The scipy fits are modelled by their outcomes
(`none` = the fit raised); whenever the periodic fit succeeds it is used,
otherwise a successful natural fit is used, otherwise the linear
interpolation is used — and the builder is a total function of the fit
outcomes, so no failure is ever propagated to the caller. -/
theorem C9_fallback_chain (per nat : Option AxisSplines) (lin : AxisSplines)
    (cps : List Vec3) (pps : ℕ) (h2 : 2 ≤ cps.length) :
    (∀ s, per = some s →
      PolynomialPathGenerator.generateParametricCurve per nat lin cps pps =
        PolynomialPathGenerator.sampleAndClamp s cps pps) ∧
    (per = none → ∀ s, nat = some s →
      PolynomialPathGenerator.generateParametricCurve per nat lin cps pps =
        PolynomialPathGenerator.sampleAndClamp s cps pps) ∧
    (per = none → nat = none →
      PolynomialPathGenerator.generateParametricCurve per nat lin cps pps =
        PolynomialPathGenerator.sampleAndClamp lin cps pps) := by
  refine ⟨?_, ?_, ?_⟩
  · rintro s rfl
    unfold PolynomialPathGenerator.generateParametricCurve
    rw [if_neg (by omega)]
  · rintro rfl s rfl
    unfold PolynomialPathGenerator.generateParametricCurve
    rw [if_neg (by omega)]
  · rintro rfl rfl
    unfold PolynomialPathGenerator.generateParametricCurve
    rw [if_neg (by omega)]

/-- C9 (witness): when both the periodic and the natural fit raise, the
concrete two-checkpoint curve is built from the linear fallback. -/
theorem C9_fallback_witness :
    PolynomialPathGenerator.generateParametricCurve none none cexSplines
        [⟨0, 0, 0⟩, ⟨4, 0, 0⟩] 3 =
      PolynomialPathGenerator.sampleAndClamp cexSplines [⟨0, 0, 0⟩, ⟨4, 0, 0⟩] 3 :=
  (C9_fallback_chain none none cexSplines [⟨0, 0, 0⟩, ⟨4, 0, 0⟩] 3
    (by norm_num)).2.2 rfl rfl

/-! ### C10 -/

/-- C10: in both generators, whenever the current path index is at least the
number of path points (in particular when the path is empty),
`get_next_target` returns `(None, True)` and the path index is unchanged.
For the polynomial generator the index attribute may not exist yet (`none`),
in which case the `hasattr` guard creates it as `0`. -/
theorem C10_get_next_target_past_end (pathPoints : List Vec3) (idx : ℕ)
    (idxOpt : Option ℕ) (pos : Vec3) (lookAhead : ℝ)
    (hb : pathPoints.length ≤ idx) (hp : pathPoints.length ≤ idxOpt.getD 0) :
    BezierPathGenerator.getNextTarget pathPoints idx pos lookAhead =
      (none, true, idx) ∧
    PolynomialPathGenerator.getNextTarget pathPoints idxOpt pos lookAhead =
      (none, true, idxOpt.getD 0) := by
  constructor
  · unfold BezierPathGenerator.getNextTarget
    rw [if_pos hb]
  · unfold PolynomialPathGenerator.getNextTarget
    rw [if_pos hp]

/-- C10 (witness): on an empty path with index 0 (respectively a
not-yet-created index attribute) both generators report `(None, True)`. -/
theorem C10_witness_empty_path :
    BezierPathGenerator.getNextTarget [] 0 ⟨0, 0, 0⟩ 1 = (none, true, 0) ∧
    PolynomialPathGenerator.getNextTarget [] none ⟨0, 0, 0⟩ 1 = (none, true, 0) :=
  C10_get_next_target_past_end [] 0 none ⟨0, 0, 0⟩ 1 (by norm_num) (by norm_num)

/-! ### C7 -/

/-- C7: both speed-profile builders return exactly one speed per curve
sample, and the degenerate `[baseSpeed]` profile when the curve is empty, so
the profile is never an empty sequence. -/
theorem C7_speed_profile_length (pathPoints cps : List Vec3) (baseSpeed : ℝ)
    (variation : ℕ → ℝ) :
    (pathPoints.length ≠ 0 →
      (PolynomialPathGenerator.getSpeedProfile pathPoints baseSpeed).length =
        pathPoints.length ∧
      (BezierPathGenerator.getSpeedProfile pathPoints cps baseSpeed variation).length =
        pathPoints.length) ∧
    (pathPoints.length = 0 →
      PolynomialPathGenerator.getSpeedProfile pathPoints baseSpeed = [baseSpeed] ∧
      BezierPathGenerator.getSpeedProfile pathPoints cps baseSpeed variation =
        [baseSpeed]) := by
  constructor
  · intro h
    constructor
    · unfold PolynomialPathGenerator.getSpeedProfile
      rw [if_neg h, List.length_replicate]
    · unfold BezierPathGenerator.getSpeedProfile
      rw [if_neg h, List.length_map, List.length_range]
  · intro h
    constructor
    · unfold PolynomialPathGenerator.getSpeedProfile
      rw [if_pos h]
    · unfold BezierPathGenerator.getSpeedProfile
      rw [if_pos h]

/-- C7 (witness): a 3-point path gives 3 speeds; an empty path gives the
one-element degenerate profile. -/
theorem C7_witness :
    (PolynomialPathGenerator.getSpeedProfile cexCheckpoints 2).length = 3 ∧
    BezierPathGenerator.getSpeedProfile [] cexCheckpoints 2 (fun _ => 1) = [2] := by
  constructor
  · exact ((C7_speed_profile_length cexCheckpoints cexCheckpoints 2 (fun _ => 1)).1
      (by norm_num [cexCheckpoints])).1
  · exact ((C7_speed_profile_length [] cexCheckpoints 2 (fun _ => 1)).2 rfl).2

/-! ### C8 -/

/-- C8: the checkpoint-based speed factor equals the spec's trapezoid for
every segment index and local parameter, and at the exact midpoint of an
interior segment the pre-jitter speed is `0.5 * baseSpeed`. -/
theorem C8_trapezoid_speed_factor (segmentIndex totalSegments : ℕ) (localT : ℝ)
    (baseSpeed : ℝ) :
    BezierPathGenerator.getCheckpointBasedSpeedFactor segmentIndex localT
        totalSegments = specTrapezoidFactor segmentIndex localT totalSegments ∧
    (segmentIndex ≠ 0 → segmentIndex ≠ totalSegments - 1 →
      baseSpeed *
        BezierPathGenerator.getCheckpointBasedSpeedFactor segmentIndex (1 / 2)
          totalSegments = 0.5 * baseSpeed) := by
  constructor
  · unfold BezierPathGenerator.getCheckpointBasedSpeedFactor specTrapezoidFactor
    split_ifs <;> ring
  · intro h0 hl
    unfold BezierPathGenerator.getCheckpointBasedSpeedFactor
    rw [if_neg h0, if_neg hl, if_neg (by norm_num), if_pos (by norm_num)]
    ring

/-- C8 (witness): the middle segment of three, at its midpoint, with base
speed 2. -/
theorem C8_witness :
    BezierPathGenerator.getCheckpointBasedSpeedFactor 1 (1 / 2) 3 =
      specTrapezoidFactor 1 (1 / 2) 3 ∧
    (2 : ℝ) * BezierPathGenerator.getCheckpointBasedSpeedFactor 1 (1 / 2) 3 =
      0.5 * 2 := by
  have h := C8_trapezoid_speed_factor 1 3 (1 / 2) 2
  exact ⟨h.1, h.2 (by norm_num) (by norm_num)⟩

/-! ### C3 -/


theorem cross_forward_cexTangent :
    DroneSimulator.cross ⟨0, 0, -1⟩ cexTangent = ⟨0, -1, 0⟩ := by
  unfold DroneSimulator.cross cexTangent
  ext <;> norm_num

theorem GetLength_unitY : Vec3.GetLength ⟨0, -1, 0⟩ = 1 := by
  unfold Vec3.GetLength
  norm_num

theorem GetNormalized_unitY : Vec3.GetNormalized ⟨0, -1, 0⟩ = ⟨0, -1, 0⟩ := by
  unfold Vec3.GetNormalized
  rw [GetLength_unitY, max_eq_left (by norm_num [Vec3.vecEps])]
  ext <;> simp

theorem dot_forward_cexTangent :
    DroneSimulator.dot ⟨0, 0, -1⟩ cexTangent = 0 := by
  unfold DroneSimulator.dot cexTangent
  norm_num

/-- C3 (code bug): for the tangent `(1, 0, 0)` the code returns the
quaternion `Quatd(0, -√2/2, 0, √2/2)` — real part `0` — while the minimal
rotation mapping the forward axis `(0,0,-1)` onto the tangent is
`Quatd(√2/2, 0, -√2/2, 0)`.  The axis and angle are computed correctly, but
the components are passed to the `Gf.Quatd(real, i, j, k)` constructor in
`(i, j, k, real)` order, so the returned quaternion is not the minimal
rotation (the code's own special cases at lines 446 and 449 use the correct
argument order). -/
theorem C3_quaternion_constructor_order_bug :
    DroneSimulator.tangentToQuaternion cexTangent =
      ⟨0, -(Real.sqrt 2 / 2), 0, Real.sqrt 2 / 2⟩ ∧
    DroneSimulator.minimalRotationQuat cexTangent =
      ⟨Real.sqrt 2 / 2, 0, -(Real.sqrt 2 / 2), 0⟩ ∧
    DroneSimulator.tangentToQuaternion cexTangent ≠
      DroneSimulator.minimalRotationQuat cexTangent := by
  have hclamp : max (-1 : ℝ) (min 1 (DroneSimulator.dot ⟨0, 0, -1⟩ cexTangent)) = 0 := by
    rw [dot_forward_cexTangent]
    norm_num
  have hangle : Real.arccos (max (-1 : ℝ)
      (min 1 (DroneSimulator.dot ⟨0, 0, -1⟩ cexTangent))) / 2 = Real.pi / 4 := by
    rw [hclamp, Real.arccos_zero]
    ring
  have hcode : DroneSimulator.tangentToQuaternion cexTangent =
      ⟨0, -(Real.sqrt 2 / 2), 0, Real.sqrt 2 / 2⟩ := by
    unfold DroneSimulator.tangentToQuaternion
    rw [if_neg (by norm_num [cexTangent])]
    simp only [cross_forward_cexTangent, GetLength_unitY, GetNormalized_unitY,
      dot_forward_cexTangent]
    rw [if_neg (by norm_num)]
    rw [show Real.arccos (max (-1 : ℝ) (min 1 0)) = Real.pi / 2 by
      norm_num [Real.arccos_zero]]
    ext <;>
      simp [Real.sin_pi_div_four, Real.cos_pi_div_four,
        show Real.pi / 2 / 2 = Real.pi / 4 by ring]
  have hspec : DroneSimulator.minimalRotationQuat cexTangent =
      ⟨Real.sqrt 2 / 2, 0, -(Real.sqrt 2 / 2), 0⟩ := by
    unfold DroneSimulator.minimalRotationQuat
    simp only [cross_forward_cexTangent, GetLength_unitY, GetNormalized_unitY,
      dot_forward_cexTangent]
    rw [show Real.arccos (max (-1 : ℝ) (min 1 0)) = Real.pi / 2 by
      norm_num [Real.arccos_zero]]
    ext <;>
      simp [Real.sin_pi_div_four, Real.cos_pi_div_four,
        show Real.pi / 2 / 2 = Real.pi / 4 by ring]
  refine ⟨hcode, hspec, ?_⟩
  rw [hcode, hspec]
  intro h
  have hre := congrArg Quatd.re h
  simp only at hre
  have hs : Real.sqrt 2 = 0 := by linarith
  have h4 := Real.sq_sqrt (show (0 : ℝ) ≤ 2 by norm_num)
  rw [hs] at h4
  norm_num at h4

namespace DroneSimulator

@[simp] theorem applyCheckpointCount_currentPosition (d : DroneInfo) :
    (applyCheckpointCount d).currentPosition = d.currentPosition := by
  unfold applyCheckpointCount
  dsimp only
  split <;> rfl

@[simp] theorem applyCheckpointCount_targetPosition (d : DroneInfo) :
    (applyCheckpointCount d).targetPosition = d.targetPosition := by
  unfold applyCheckpointCount
  dsimp only
  split <;> rfl

@[simp] theorem applyCheckpointCount_currentPathIndex (d : DroneInfo) :
    (applyCheckpointCount d).currentPathIndex = d.currentPathIndex := by
  unfold applyCheckpointCount
  dsimp only
  split <;> rfl

@[simp] theorem applyCheckpointCount_extremaPath (d : DroneInfo) :
    (applyCheckpointCount d).extremaPath = d.extremaPath := by
  unfold applyCheckpointCount
  dsimp only
  split <;> rfl

@[simp] theorem applyCheckpointCount_speedProfile (d : DroneInfo) :
    (applyCheckpointCount d).speedProfile = d.speedProfile := by
  unfold applyCheckpointCount
  dsimp only
  split <;> rfl

@[simp] theorem applyCheckpointCount_isMoving (d : DroneInfo) :
    (applyCheckpointCount d).isMoving = d.isMoving := by
  unfold applyCheckpointCount
  dsimp only
  split <;> rfl

@[simp] theorem applyCheckpointCount_checkpoints (d : DroneInfo) :
    (applyCheckpointCount d).checkpoints = d.checkpoints := by
  unfold applyCheckpointCount
  dsimp only
  split <;> rfl

theorem le_applyCheckpointCount_checkpointReached (d : DroneInfo) :
    d.checkpointReached ≤ (applyCheckpointCount d).checkpointReached := by
  unfold applyCheckpointCount
  dsimp only
  split
  · next h => exact le_of_lt h.2
  · exact le_refl _

theorem checkExtremaReached_le (d : DroneInfo) (pos : Vec3) :
    checkExtremaReached d pos ≤ d.checkpoints.length := by
  unfold checkExtremaReached
  split
  · next i cp heq =>
      have hm := List.mem_of_find?_eq_some heq
      have := List.fst_lt_of_mem_enum hm
      omega
  · omega

theorem applyCheckpointCount_checkpointReached_le (d : DroneInfo)
    (h : d.checkpointReached ≤ d.checkpoints.length) :
    (applyCheckpointCount d).checkpointReached ≤ d.checkpoints.length := by
  unfold applyCheckpointCount
  dsimp only
  split
  · exact checkExtremaReached_le d d.currentPosition
  · exact h

@[simp] theorem moveTowardTarget_isMoving (entry : DroneInfo) (s dt : ℝ)
    (e : DroneInfo) : (moveTowardTarget entry s dt e).isMoving = e.isMoving := by
  unfold moveTowardTarget
  dsimp only
  split <;> rfl

@[simp] theorem moveTowardTarget_checkpoints (entry : DroneInfo) (s dt : ℝ)
    (e : DroneInfo) : (moveTowardTarget entry s dt e).checkpoints = e.checkpoints := by
  unfold moveTowardTarget
  dsimp only
  split <;> rfl

@[simp] theorem moveTowardTarget_checkpointReached (entry : DroneInfo) (s dt : ℝ)
    (e : DroneInfo) :
    (moveTowardTarget entry s dt e).checkpointReached = e.checkpointReached := by
  unfold moveTowardTarget
  dsimp only
  split <;> rfl

@[simp] theorem moveTowardTarget_currentPathIndex (entry : DroneInfo) (s dt : ℝ)
    (e : DroneInfo) :
    (moveTowardTarget entry s dt e).currentPathIndex = e.currentPathIndex := by
  unfold moveTowardTarget
  dsimp only
  split <;> rfl

@[simp] theorem moveTowardTarget_targetPosition (entry : DroneInfo) (s dt : ℝ)
    (e : DroneInfo) :
    (moveTowardTarget entry s dt e).targetPosition = e.targetPosition := by
  unfold moveTowardTarget
  dsimp only
  split <;> rfl

@[simp] theorem moveTowardTarget_extremaPath (entry : DroneInfo) (s dt : ℝ)
    (e : DroneInfo) :
    (moveTowardTarget entry s dt e).extremaPath = e.extremaPath := by
  unfold moveTowardTarget
  dsimp only
  split <;> rfl

@[simp] theorem moveTowardTarget_speedProfile (entry : DroneInfo) (s dt : ℝ)
    (e : DroneInfo) :
    (moveTowardTarget entry s dt e).speedProfile = e.speedProfile := by
  unfold moveTowardTarget
  dsimp only
  split <;> rfl

theorem moveTowardTarget_not_moving (entry : DroneInfo) (s dt : ℝ)
    (e : DroneInfo) (h : e.isMoving = false) :
    moveTowardTarget entry s dt e = e := by
  unfold moveTowardTarget
  rw [if_neg (by rw [h]; simp)]

/-- A single tick of a drone whose moving flag is already cleared neither
moves the drone nor re-sets the flag. -/
theorem updateDroneMovement_stopped (dt : ℝ) (d : DroneInfo)
    (h : d.isMoving = false) :
    (updateDroneMovement dt d).currentPosition = d.currentPosition ∧
    (updateDroneMovement dt d).isMoving = false := by
  unfold updateDroneMovement
  dsimp only
  split_ifs with h1 h2
  · rw [moveTowardTarget_not_moving _ _ _ _ (by simp [h])]
    simp [h]
  · simp [h]
  · rw [moveTowardTarget_not_moving _ _ _ _ (by simp [h])]
    simp [h]

theorem updateDroneMovement_checkpoints (dt : ℝ) (d : DroneInfo) :
    (updateDroneMovement dt d).checkpoints = d.checkpoints := by
  unfold updateDroneMovement
  dsimp only
  split_ifs <;> simp

theorem updateDroneMovement_counter_mono (dt : ℝ) (d : DroneInfo) :
    d.checkpointReached ≤ (updateDroneMovement dt d).checkpointReached := by
  unfold updateDroneMovement
  dsimp only
  split_ifs <;> simp [le_applyCheckpointCount_checkpointReached d]

theorem updateDroneMovement_counter_le (dt : ℝ) (d : DroneInfo)
    (h : d.checkpointReached ≤ d.checkpoints.length) :
    (updateDroneMovement dt d).checkpointReached ≤ d.checkpoints.length := by
  unfold updateDroneMovement
  dsimp only
  split_ifs <;> simp [applyCheckpointCount_checkpointReached_le d h]

end DroneSimulator

/-! ### C5 -/

/-- C5: once the moving flag is false the stopped state is terminal — any
number of further per-tick updates leaves the tracked position unchanged and
the flag false. -/
theorem C5_stopped_state_terminal (dt : ℝ) (d : DroneSimulator.DroneInfo)
    (h : d.isMoving = false) (n : ℕ) :
    ((DroneSimulator.updateDroneMovement dt)^[n] d).currentPosition =
      d.currentPosition ∧
    ((DroneSimulator.updateDroneMovement dt)^[n] d).isMoving = false := by
  induction n with
  | zero => exact ⟨rfl, h⟩
  | succ n ih =>
      rw [Function.iterate_succ_apply']
      have h1 := DroneSimulator.updateDroneMovement_stopped dt _ ih.2
      exact ⟨h1.1.trans ih.1, h1.2⟩

/-- C5 (witness): a concrete stopped drone at `(8,0,0)` is untouched by three
further ticks. -/
theorem C5_witness :
    ((DroneSimulator.updateDroneMovement (1 / 60))^[3]
        ⟨cexCheckpoints, cexCheckpoints, [2, 2, 2], 2, ⟨8, 0, 0⟩, ⟨8, 0, 0⟩,
          false, 3⟩).currentPosition = (⟨8, 0, 0⟩ : Vec3) ∧
    ((DroneSimulator.updateDroneMovement (1 / 60))^[3]
        ⟨cexCheckpoints, cexCheckpoints, [2, 2, 2], 2, ⟨8, 0, 0⟩, ⟨8, 0, 0⟩,
          false, 3⟩).isMoving = false :=
  C5_stopped_state_terminal (1 / 60)
    ⟨cexCheckpoints, cexCheckpoints, [2, 2, 2], 2, ⟨8, 0, 0⟩, ⟨8, 0, 0⟩, false, 3⟩
    rfl 3

/-! ### C6 -/

/-- C6: across any sequence of per-tick updates the checkpoints-passed
counter is monotonically non-decreasing and (when started within bounds, as
`start_drone_simulation` does with counter 0) never exceeds the number of
original checkpoints. -/
theorem C6_counter_monotone_bounded (dt : ℝ) (d : DroneSimulator.DroneInfo)
    (h : d.checkpointReached ≤ d.checkpoints.length) (n : ℕ) :
    ((DroneSimulator.updateDroneMovement dt)^[n] d).checkpointReached ≤
      ((DroneSimulator.updateDroneMovement dt)^[n + 1] d).checkpointReached ∧
    ((DroneSimulator.updateDroneMovement dt)^[n] d).checkpointReached ≤
      d.checkpoints.length := by
  have key : ∀ m : ℕ,
      ((DroneSimulator.updateDroneMovement dt)^[m] d).checkpointReached ≤
        d.checkpoints.length ∧
      ((DroneSimulator.updateDroneMovement dt)^[m] d).checkpoints =
        d.checkpoints := by
    intro m
    induction m with
    | zero => exact ⟨h, rfl⟩
    | succ m ih =>
        rw [Function.iterate_succ_apply']
        constructor
        · have := DroneSimulator.updateDroneMovement_counter_le dt _
            (by rw [ih.2]; exact ih.1)
          rw [ih.2] at this
          exact this
        · rw [DroneSimulator.updateDroneMovement_checkpoints, ih.2]
  constructor
  · rw [Function.iterate_succ_apply']
    exact DroneSimulator.updateDroneMovement_counter_mono dt _
  · exact (key n).1

/-- C6 (witness): concrete moving drone, counter after 2 ticks is monotone
and bounded by the 3 checkpoints. -/
theorem C6_witness :
    ((DroneSimulator.updateDroneMovement 1)^[2]
        ⟨cexCheckpoints, cexCheckpoints, [2, 2, 2], 0, ⟨0, 0, 0⟩, ⟨4, 0, 0⟩,
          true, 0⟩).checkpointReached ≤
      ((DroneSimulator.updateDroneMovement 1)^[3]
        ⟨cexCheckpoints, cexCheckpoints, [2, 2, 2], 0, ⟨0, 0, 0⟩, ⟨4, 0, 0⟩,
          true, 0⟩).checkpointReached ∧
    ((DroneSimulator.updateDroneMovement 1)^[2]
        ⟨cexCheckpoints, cexCheckpoints, [2, 2, 2], 0, ⟨0, 0, 0⟩, ⟨4, 0, 0⟩,
          true, 0⟩).checkpointReached ≤ 3 :=
  C6_counter_monotone_bounded 1
    ⟨cexCheckpoints, cexCheckpoints, [2, 2, 2], 0, ⟨0, 0, 0⟩, ⟨4, 0, 0⟩, true, 0⟩
    (by norm_num [cexCheckpoints]) 2

namespace DroneSimulator

theorem applyCheckpointCount_of_no_checkpoints (d : DroneInfo)
    (h : d.checkpoints = []) : applyCheckpointCount d = d := by
  unfold applyCheckpointCount checkExtremaReached
  rw [h]
  simp

/-- Tick case: the target is at least the arrival threshold away and the
drone is moving — the position advances by `speed * dt` along the direction
to the target, or clamps to the target if that would overshoot. -/
theorem tick_no_arrival (dt : ℝ) (d : DroneInfo)
    (hcp : applyCheckpointCount d = d)
    (hfar : ¬ Vec3.GetLength (d.targetPosition.sub d.currentPosition) < 0.15)
    (hmov : d.isMoving = true) :
    updateDroneMovement dt d =
      { d with currentPosition :=
          (if Vec3.GetLength (d.targetPosition.sub d.currentPosition) <
              currentTickSpeed d * dt then d.targetPosition
            else d.currentPosition.add (Vec3.smul (currentTickSpeed d * dt)
              (Vec3.GetNormalized (d.targetPosition.sub d.currentPosition)))) } := by
  unfold updateDroneMovement
  dsimp only
  rw [if_neg hfar, hcp]
  unfold moveTowardTarget
  dsimp only
  rw [if_pos hmov]

/-- Tick case: within the arrival threshold with a further sample remaining —
the target index advances, and the movement block still runs against the
entry snapshot. -/
theorem tick_arrival_advance (dt : ℝ) (d : DroneInfo)
    (hcp : applyCheckpointCount d = d)
    (hnear : Vec3.GetLength (d.targetPosition.sub d.currentPosition) < 0.15)
    (hnext : d.currentPathIndex + 1 < d.extremaPath.length)
    (hmov : d.isMoving = true) :
    updateDroneMovement dt d =
      { d with
          currentPathIndex := d.currentPathIndex + 1,
          targetPosition := d.extremaPath.getD (d.currentPathIndex + 1) Vec3.zero,
          currentPosition :=
            (if Vec3.GetLength (d.targetPosition.sub d.currentPosition) <
                currentTickSpeed d * dt then d.targetPosition
              else d.currentPosition.add (Vec3.smul (currentTickSpeed d * dt)
                (Vec3.GetNormalized (d.targetPosition.sub d.currentPosition)))) } := by
  unfold updateDroneMovement
  dsimp only
  rw [hcp, if_pos hnear, if_pos hnext]
  unfold moveTowardTarget
  dsimp only
  rw [if_pos (show _ by simp only [hmov])]

/-- Tick case: within the arrival threshold with no sample remaining — the
moving flag is cleared and the function returns early, the position is not
touched. -/
theorem tick_stop (dt : ℝ) (d : DroneInfo)
    (hcp : applyCheckpointCount d = d)
    (hnear : Vec3.GetLength (d.targetPosition.sub d.currentPosition) < 0.15)
    (hlast : ¬ d.currentPathIndex + 1 < d.extremaPath.length) :
    updateDroneMovement dt d = { d with isMoving := false } := by
  unfold updateDroneMovement
  dsimp only
  rw [hcp, if_pos hnear, if_neg hlast]

end DroneSimulator

namespace DroneSimulator

theorem currentTickSpeed_twoPointRun (a b : Vec3) (s : ℝ) (p : Vec3) (i : ℕ)
    (mv : Bool) (hs : 0 < s) (hi : i < 2) :
    currentTickSpeed (twoPointRun a b s p i mv) = s := by
  unfold currentTickSpeed twoPointRun
  dsimp only
  rw [if_pos (show i < ([s, s] : List ℝ).length by simpa using hi)]
  have hg : ([s, s] : List ℝ).getD i 0 = s := by
    interval_cases i <;> rfl
  rw [hg, if_neg (not_le.mpr hs)]

theorem applyCheckpointCount_twoPointRun (a b : Vec3) (s : ℝ) (p : Vec3)
    (i : ℕ) (mv : Bool) :
    applyCheckpointCount (twoPointRun a b s p i mv) = twoPointRun a b s p i mv :=
  applyCheckpointCount_of_no_checkpoints _ rfl

theorem GetLength_sub_self (v : Vec3) : Vec3.GetLength (v.sub v) = 0 := by
  rw [Vec3.sub_self', Vec3.GetLength_zero]

/-- A moving drone standing exactly on the target with the first path sample
still current: the arrival block advances to the final sample, and the
overshoot clamp keeps the position on the target. -/
theorem tick_at_target_first_index (a b : Vec3) (s dt : ℝ) (hs : 0 < s)
    (hdt : 0 < dt) :
    updateDroneMovement dt (twoPointRun a b s b 0 true) =
      twoPointRun a b s b 1 true := by
  rw [tick_arrival_advance dt _ (applyCheckpointCount_twoPointRun a b s b 0 true)
    (by simp [twoPointRun, GetLength_sub_self]; norm_num)
    (by simp [twoPointRun]) rfl,
    currentTickSpeed_twoPointRun a b s b 0 true hs (by norm_num)]
  simp only [twoPointRun]
  rw [if_pos (by rw [GetLength_sub_self]; positivity)]
  simp

/-- A drone standing exactly on the target with the final path sample
current: the arrival block finds no further sample and clears the moving
flag without touching the position. -/
theorem tick_at_target_last_index (a b : Vec3) (s dt : ℝ) (mv : Bool) :
    updateDroneMovement dt (twoPointRun a b s b 1 mv) =
      twoPointRun a b s b 1 false := by
  rw [tick_stop dt _ (applyCheckpointCount_twoPointRun a b s b 1 mv)
    (by simp [twoPointRun, GetLength_sub_self]; norm_num)
    (by simp [twoPointRun])]
  rfl

/-- One tick from within one displacement of the target lands exactly on the
target with the moving flag still set (by the overshoot clamp, or — when the
remaining distance is exactly one displacement — by an exact landing); the
path index may or may not have advanced depending on the 0.15 threshold. -/
theorem tick_reaches_target (a b p : Vec3) (s dt : ℝ) (hs : 0 < s)
    (hdt : 0 < dt) (h15 : (0.15 : ℝ) ≤ s * dt)
    (hr0 : 0 < Vec3.GetLength (b.sub p))
    (hrc : Vec3.GetLength (b.sub p) ≤ s * dt) :
    updateDroneMovement dt (twoPointRun a b s p 0 true) =
        twoPointRun a b s b 0 true ∨
    updateDroneMovement dt (twoPointRun a b s p 0 true) =
        twoPointRun a b s b 1 true := by
  have hspeed := currentTickSpeed_twoPointRun a b s p 0 true hs (by norm_num)
  by_cases hnear : Vec3.GetLength (b.sub p) < 0.15
  · right
    rw [tick_arrival_advance dt _ (applyCheckpointCount_twoPointRun a b s p 0 true)
      (by simpa [twoPointRun] using hnear) (by simp [twoPointRun]) rfl, hspeed]
    simp only [twoPointRun]
    rw [if_pos (show Vec3.GetLength (b.sub p) < s * dt by linarith)]
    simp
  · left
    rw [tick_no_arrival dt _ (applyCheckpointCount_twoPointRun a b s p 0 true)
      (by simpa [twoPointRun] using hnear) rfl, hspeed]
    simp only [twoPointRun]
    by_cases hclamp : Vec3.GetLength (b.sub p) < s * dt
    · rw [if_pos hclamp]
    · -- exact landing: the remaining distance equals one displacement
      have hrEq : Vec3.GetLength (b.sub p) = s * dt := le_antisymm hrc (not_lt.mp hclamp)
      rw [if_neg hclamp]
      congr 1
      have heps : Vec3.vecEps < Vec3.GetLength (b.sub p) := by
        rw [hrEq]
        have h1 : (1e-10 : ℝ) < 0.15 := by norm_num
        unfold Vec3.vecEps
        linarith
      rw [Vec3.GetNormalized_of_eps_lt heps, Vec3.smul_smul', hrEq]
      rw [show s * dt * (1 / (s * dt)) = 1 from by field_simp]
      have h1 : Vec3.smul 1 (b.sub p) = b.sub p := by
        ext <;> simp
      rw [h1, Vec3.add_sub_cancel']

end DroneSimulator

namespace DroneSimulator

theorem posAt_zero (a b : Vec3) (c : ℝ) : posAt a b c 0 = a := by
  unfold posAt
  ext <;> simp

theorem smul_length_normalized {v : Vec3} (heps : Vec3.vecEps < Vec3.GetLength v) :
    Vec3.smul (Vec3.GetLength v) (Vec3.GetNormalized v) = v := by
  have h0 : Vec3.GetLength v ≠ 0 := by
    have : (0 : ℝ) < Vec3.vecEps := by norm_num [Vec3.vecEps]
    exact ne_of_gt (lt_trans this heps)
  rw [Vec3.GetNormalized_of_eps_lt heps, Vec3.smul_smul',
    show Vec3.GetLength v * (1 / Vec3.GetLength v) = 1 from by field_simp]
  ext <;> simp

theorem b_sub_posAt (a b : Vec3) (heps : Vec3.vecEps < Vec3.GetLength (b.sub a))
    (c : ℝ) (k : ℕ) :
    b.sub (posAt a b c k) =
      Vec3.smul (Vec3.GetLength (b.sub a) - k * c) (Vec3.GetNormalized (b.sub a)) := by
  unfold posAt
  rw [Vec3.sub_add]
  nth_rewrite 1 [← smul_length_normalized heps]
  rw [Vec3.smul_sub_smul]

theorem GetLength_b_sub_posAt (a b : Vec3)
    (heps : Vec3.vecEps < Vec3.GetLength (b.sub a)) (c : ℝ) (k : ℕ)
    (h : (k : ℝ) * c ≤ Vec3.GetLength (b.sub a)) :
    Vec3.GetLength (b.sub (posAt a b c k)) = Vec3.GetLength (b.sub a) - k * c := by
  rw [b_sub_posAt a b heps c k, Vec3.GetLength_smul,
    Vec3.GetLength_GetNormalized heps, mul_one, abs_of_nonneg (by linarith)]

/-- Phase 1 of a straight 2-point run: while at least one full displacement
remains, every tick advances the position by exactly `s * dt` along the unit
direction, with the index, target and flags untouched. -/
theorem iterate_twoPointRun (a b : Vec3) (s dt : ℝ) (hs : 0 < s) (hdt : 0 < dt)
    (h15 : (0.15 : ℝ) ≤ s * dt) :
    ∀ k : ℕ, (k : ℝ) * (s * dt) ≤ Vec3.GetLength (b.sub a) →
      (updateDroneMovement dt)^[k] (twoPointRun a b s a 0 true) =
        twoPointRun a b s (posAt a b (s * dt) k) 0 true := by
  have hc : 0 < s * dt := by positivity
  intro k
  induction k with
  | zero =>
      intro _
      rw [Function.iterate_zero_apply, posAt_zero]
  | succ k ih =>
      intro hk
      have hcast : ((k + 1 : ℕ) : ℝ) = (k : ℝ) + 1 := by push_cast; ring
      rw [hcast] at hk
      have hk' : (k : ℝ) * (s * dt) ≤ Vec3.GetLength (b.sub a) := by nlinarith
      have hremain : s * dt ≤ Vec3.GetLength (b.sub a) - (k : ℝ) * (s * dt) := by
        nlinarith
      have heps : Vec3.vecEps < Vec3.GetLength (b.sub a) := by
        have h0 : Vec3.vecEps < 0.15 := by norm_num [Vec3.vecEps]
        have hknn : (0 : ℝ) ≤ (k : ℝ) * (s * dt) := by positivity
        linarith
      have hdist := GetLength_b_sub_posAt a b heps (s * dt) k hk'
      rw [Function.iterate_succ_apply', ih hk']
      rw [tick_no_arrival dt _
        (applyCheckpointCount_twoPointRun a b s (posAt a b (s * dt) k) 0 true)
        (by show ¬ Vec3.GetLength (b.sub (posAt a b (s * dt) k)) < 0.15
            rw [hdist]; linarith) rfl,
        currentTickSpeed_twoPointRun a b s (posAt a b (s * dt) k) 0 true hs
          (by norm_num)]
      simp only [twoPointRun]
      rw [if_neg (by rw [hdist]; linarith)]
      congr 1
      have heps2 : Vec3.vecEps < Vec3.GetLength (b.sub (posAt a b (s * dt) k)) := by
        rw [hdist]
        have h0 : Vec3.vecEps < 0.15 := by norm_num [Vec3.vecEps]
        linarith
      rw [Vec3.GetNormalized_of_eps_lt heps2, hdist, b_sub_posAt a b heps (s * dt) k,
        Vec3.smul_smul', Vec3.smul_smul']
      have hX : Vec3.GetLength (b.sub a) - (k : ℝ) * (s * dt) ≠ 0 :=
        ne_of_gt (by linarith)
      rw [show s * dt * (1 / (Vec3.GetLength (b.sub a) - (k : ℝ) * (s * dt))) *
            (Vec3.GetLength (b.sub a) - (k : ℝ) * (s * dt)) = s * dt from by
          rw [one_div, mul_assoc, inv_mul_cancel₀ hX, mul_one]]
      unfold posAt
      rw [Vec3.add_assoc', Vec3.smul_add_smul]
      rw [show ((k + 1 : ℕ) : ℝ) * (s * dt) = (k : ℝ) * (s * dt) + s * dt from by
          push_cast; ring]

end DroneSimulator

/-! ### C4 -/

/-- C4 (amended): on a straight 2-point run at constant speed `s` with fixed
timestep `dt` whose per-tick displacement `s * dt` is at least the 0.15
arrival threshold, the tracked position equals the final sample exactly after
`ceil(distance / (s * dt))` ticks (overshoot is clamped, or the final step
lands exactly); the moving flag is still true on that tick and becomes false
within the following two ticks — not necessarily on the immediately next
tick, because the tick after reaching the target may only advance the path
index to the final sample. -/
theorem C4_amended_reach_then_stop (a b : Vec3) (s dt : ℝ) (hs : 0 < s)
    (hdt : 0 < dt) (h15 : (0.15 : ℝ) ≤ s * dt)
    (hD : 0 < Vec3.GetLength (b.sub a)) :
    ((DroneSimulator.updateDroneMovement dt)^[⌈Vec3.GetLength (b.sub a) / (s * dt)⌉₊]
        (DroneSimulator.twoPointRun a b s a 0 true)).currentPosition = b ∧
    ((DroneSimulator.updateDroneMovement dt)^[⌈Vec3.GetLength (b.sub a) / (s * dt)⌉₊]
        (DroneSimulator.twoPointRun a b s a 0 true)).isMoving = true ∧
    (DroneSimulator.updateDroneMovement dt)^[⌈Vec3.GetLength (b.sub a) / (s * dt)⌉₊ + 2]
        (DroneSimulator.twoPointRun a b s a 0 true) =
      DroneSimulator.twoPointRun a b s b 1 false := by
  have hc : 0 < s * dt := by positivity
  set D := Vec3.GetLength (b.sub a) with hDdef
  set m := ⌈D / (s * dt)⌉₊ with hmdef
  have hm0 : 0 < m := Nat.ceil_pos.mpr (div_pos hD hc)
  have hDm : D ≤ (m : ℝ) * (s * dt) := by
    have h1 := Nat.le_ceil (D / (s * dt))
    rw [div_le_iff hc] at h1
    exact h1
  have hkey : (DroneSimulator.updateDroneMovement dt)^[m]
        (DroneSimulator.twoPointRun a b s a 0 true) =
        DroneSimulator.twoPointRun a b s b 0 true ∨
      (DroneSimulator.updateDroneMovement dt)^[m]
        (DroneSimulator.twoPointRun a b s a 0 true) =
        DroneSimulator.twoPointRun a b s b 1 true := by
    rw [show m = (m - 1) + 1 from by omega, Function.iterate_succ_apply']
    by_cases hm2 : 2 ≤ m
    · have hlt : ((m - 1 : ℕ) : ℝ) < D / (s * dt) := Nat.lt_ceil.mp (by omega)
      have hlow : ((m - 1 : ℕ) : ℝ) * (s * dt) < D := (lt_div_iff hc).mp hlt
      have hcast : ((m - 1 : ℕ) : ℝ) = (m : ℝ) - 1 := by
        push_cast [Nat.cast_sub (by omega : 1 ≤ m)]
        ring
      have hge1 : (1 : ℝ) ≤ ((m - 1 : ℕ) : ℝ) := by
        rw [hcast]
        have : (2 : ℝ) ≤ (m : ℝ) := by exact_mod_cast hm2
        linarith
      have heps : Vec3.vecEps < D := by
        have h1 : s * dt ≤ ((m - 1 : ℕ) : ℝ) * (s * dt) := by nlinarith
        have h2 : Vec3.vecEps < 0.15 := by norm_num [Vec3.vecEps]
        linarith
      rw [DroneSimulator.iterate_twoPointRun a b s dt hs hdt h15 (m - 1)
        (le_of_lt hlow)]
      have hdist := DroneSimulator.GetLength_b_sub_posAt a b heps (s * dt) (m - 1)
        (le_of_lt hlow)
      apply DroneSimulator.tick_reaches_target a b _ s dt hs hdt h15
      · rw [hdist]
        linarith
      · rw [hdist, hcast]
        have hexp : ((m : ℝ) - 1) * (s * dt) = (m : ℝ) * (s * dt) - s * dt := by ring
        linarith
    · have hm1 : m = 1 := by omega
      rw [show m - 1 = 0 from by omega, Function.iterate_zero_apply]
      apply DroneSimulator.tick_reaches_target a b a s dt hs hdt h15 hD
      rw [hm1] at hDm
      push_cast at hDm
      show D ≤ s * dt
      linarith
  obtain h | h := hkey
  · refine ⟨by rw [h]; rfl, by rw [h]; rfl, ?_⟩
    rw [show m + 2 = (m + 1) + 1 from rfl, Function.iterate_succ_apply',
      Function.iterate_succ_apply', h,
      DroneSimulator.tick_at_target_first_index a b s dt hs hdt,
      DroneSimulator.tick_at_target_last_index a b s dt true]
  · refine ⟨by rw [h]; rfl, by rw [h]; rfl, ?_⟩
    rw [show m + 2 = (m + 1) + 1 from rfl, Function.iterate_succ_apply',
      Function.iterate_succ_apply', h,
      DroneSimulator.tick_at_target_last_index a b s dt true,
      DroneSimulator.tick_at_target_last_index a b s dt false]

/-- C4 (counterexample): with `a = (0,0,0)`, `b = (1,0,0)`, speed `s = 2`,
`dt = 1`, we have `ceil(distance / (s*dt)) = 1` and after 1 tick the position
equals the target exactly — but on the next tick the moving flag is STILL
true (that tick merely advances the path index to the final sample; the flag
is only cleared one tick later). -/
theorem C4_counterexample_not_stopped_next_tick :
    ⌈Vec3.GetLength ((⟨1, 0, 0⟩ : Vec3).sub ⟨0, 0, 0⟩) / (2 * 1)⌉₊ = 1 ∧
    ((DroneSimulator.updateDroneMovement 1)^[1]
        (DroneSimulator.twoPointRun ⟨0, 0, 0⟩ ⟨1, 0, 0⟩ 2 ⟨0, 0, 0⟩ 0
          true)).currentPosition = (⟨1, 0, 0⟩ : Vec3) ∧
    ((DroneSimulator.updateDroneMovement 1)^[1 + 1]
        (DroneSimulator.twoPointRun ⟨0, 0, 0⟩ ⟨1, 0, 0⟩ 2 ⟨0, 0, 0⟩ 0
          true)).isMoving = true := by
  have hsub : (⟨1, 0, 0⟩ : Vec3).sub ⟨0, 0, 0⟩ = ⟨1, 0, 0⟩ := by
    ext <;> simp
  have hlen : Vec3.GetLength ⟨1, 0, 0⟩ = 1 := by
    unfold Vec3.GetLength
    norm_num
  have h1 : DroneSimulator.updateDroneMovement 1
      (DroneSimulator.twoPointRun ⟨0, 0, 0⟩ ⟨1, 0, 0⟩ 2 ⟨0, 0, 0⟩ 0 true) =
      DroneSimulator.twoPointRun ⟨0, 0, 0⟩ ⟨1, 0, 0⟩ 2 ⟨1, 0, 0⟩ 0 true := by
    rw [DroneSimulator.tick_no_arrival 1 _
        (DroneSimulator.applyCheckpointCount_twoPointRun _ _ _ _ _ _)
        (by show ¬ Vec3.GetLength ((⟨1, 0, 0⟩ : Vec3).sub ⟨0, 0, 0⟩) < 0.15
            rw [hsub, hlen]
            norm_num) rfl,
      DroneSimulator.currentTickSpeed_twoPointRun _ _ _ _ _ _ (by norm_num)
        (by norm_num)]
    simp only [DroneSimulator.twoPointRun]
    rw [hsub, hlen, if_pos (by norm_num)]
  refine ⟨?_, ?_, ?_⟩
  · rw [hsub, hlen]
    rw [Nat.ceil_eq_iff one_ne_zero]
    norm_num
  · rw [Function.iterate_one, h1]
    rfl
  · rw [Function.iterate_succ_apply', Function.iterate_one, h1,
      DroneSimulator.tick_at_target_first_index _ _ _ _ (by norm_num) (by norm_num)]
    rfl

/-- C4 (witness for the amended theorem): the same concrete run reaches the
target after `ceil(1 / 2) = 1` tick and is fully stopped two ticks later. -/
theorem C4_amended_witness :
    ((DroneSimulator.updateDroneMovement 1)^[⌈Vec3.GetLength
        ((⟨1, 0, 0⟩ : Vec3).sub ⟨0, 0, 0⟩) / (2 * 1)⌉₊]
        (DroneSimulator.twoPointRun ⟨0, 0, 0⟩ ⟨1, 0, 0⟩ 2 ⟨0, 0, 0⟩ 0
          true)).currentPosition = (⟨1, 0, 0⟩ : Vec3) ∧
    (DroneSimulator.updateDroneMovement 1)^[⌈Vec3.GetLength
        ((⟨1, 0, 0⟩ : Vec3).sub ⟨0, 0, 0⟩) / (2 * 1)⌉₊ + 2]
        (DroneSimulator.twoPointRun ⟨0, 0, 0⟩ ⟨1, 0, 0⟩ 2 ⟨0, 0, 0⟩ 0 true) =
      DroneSimulator.twoPointRun ⟨0, 0, 0⟩ ⟨1, 0, 0⟩ 2 ⟨1, 0, 0⟩ 1 false := by
  have h := C4_amended_reach_then_stop ⟨0, 0, 0⟩ ⟨1, 0, 0⟩ 2 1 (by norm_num)
    (by norm_num) (by norm_num)
    (by
      have hsub : (⟨1, 0, 0⟩ : Vec3).sub ⟨0, 0, 0⟩ = ⟨1, 0, 0⟩ := by
        ext <;> simp
      rw [hsub]
      unfold Vec3.GetLength
      norm_num)
  exact ⟨h.1, h.2.2⟩
